import Mathlib

/-!
Verification of the IoU-based detection evaluation routine of the
object-detection notebook: `calculate_iou`, `evaluate_model_performance`,
and the class-id labelling logic of `run_detector_and_visualize` and
`process_uploaded_image`.

Coordinates, scores and thresholds are modelled as rationals; the Python
floats in the notebook carry small decimal values for which rational
arithmetic is exact.  Loops become structural recursion over lists, and
statements that can raise (`NameError` from an unassigned `gt_index`,
`IndexError` from `gt_labels[gt_index]`) are modelled with `Option`,
`none` standing for the raised exception.
-/

/-- A bounding box `[ymin, xmin, ymax, xmax]`, the format used throughout
the notebook for ground-truth boxes. -/
structure Box where
  ymin : ℚ
  xmin : ℚ
  ymax : ℚ
  xmax : ℚ
deriving DecidableEq, Repr

/-- Area of a box as the notebook computes it:
`(box[2] - box[0]) * (box[3] - box[1])`. -/
def boxArea (b : Box) : ℚ :=
  (b.ymax - b.ymin) * (b.xmax - b.xmin)

/-- A valid box has `ymin ≤ ymax` and `xmin ≤ xmax`. -/
def ValidBox (b : Box) : Prop := b.ymin ≤ b.ymax ∧ b.xmin ≤ b.xmax

/-- `calculate_iou(box1, box2)` from the notebook: intersection rectangle,
clamped intersection area, union area, and the union-zero guard. -/
def calculate_iou (box1 box2 : Box) : ℚ :=
  let y1 := max box1.ymin box2.ymin
  let x1 := max box1.xmin box2.xmin
  let y2 := min box1.ymax box2.ymax
  let x2 := min box1.xmax box2.xmax
  let intersection_area := max 0 (y2 - y1) * max 0 (x2 - x1)
  let box1_area := (box1.ymax - box1.ymin) * (box1.xmax - box1.xmin)
  let box2_area := (box2.ymax - box2.ymin) * (box2.xmax - box2.xmin)
  let union_area := box1_area + box2_area - intersection_area
  if union_area = 0 then 0 else intersection_area / union_area

/-- One raw detection from the model output: a box (in the detector's
`[ymin, xmin, ymax, xmax]` order), a confidence score and an integer
class label (`pred_labels[i]`). -/
structure Detection where
  box : Box
  score : ℚ
  label : ℤ
deriving DecidableEq, Repr

/-- One dataset example as consumed by `evaluate_model_performance`:
ground-truth boxes and labels, plus the detector output for the image. -/
structure ImageSample where
  gtBoxes : List Box
  gtLabels : List ℤ
  dets : List Detection
deriving DecidableEq, Repr

/-- The mutable state of `evaluate_model_performance`: the three counters
and the `gt_index` variable, which is `none` until first assigned (the
Python function would raise `NameError` if it were read before that). -/
structure EvalState where
  tp : ℕ
  fp : ℕ
  fn : ℤ
  gtIndex : Option ℕ
deriving DecidableEq, Repr

/-- Counters start at zero; `gt_index` is unassigned. -/
def initState : EvalState := ⟨0, 0, 0, none⟩

/-- The reordering `pred_box = [pred_box[1], pred_box[0], pred_box[3],
pred_box[2]]` applied to each raw predicted box before IoU matching. -/
def swapBox (b : Box) : Box := ⟨b.xmin, b.ymin, b.xmax, b.ymax⟩

/-- The inner `for j, gt_box in enumerate(gt_boxes)` loop: fold over the
ground-truth boxes keeping the best IoU so far and the index that attained
it, starting from `best_iou = 0` and the current value of `gt_index`. -/
def bestMatchAux (pb : Box) : List Box → ℕ → ℚ × Option ℕ → ℚ × Option ℕ
  | [], _, acc => acc
  | g :: gs, j, acc =>
    bestMatchAux pb gs (j + 1)
      (if calculate_iou g pb > acc.1 then (calculate_iou g pb, some j) else acc)

/-- Best IoU and matched index for one predicted box. -/
def bestMatch (gtBoxes : List Box) (pb : Box) (gtIdx : Option ℕ) : ℚ × Option ℕ :=
  bestMatchAux pb gtBoxes 0 (0, gtIdx)

/-- The highest IoU a predicted box attains against any ground-truth box
of the image (0 when there are none). -/
def bestIoU (gtBoxes : List Box) (pb : Box) : ℚ :=
  gtBoxes.foldl (fun m g => max m (calculate_iou g pb)) 0

/-- The body of the `for i, score in enumerate(pred_scores)` loop for one
detection: skip it if `score < 0.5` (the hardcoded confidence threshold),
otherwise match it against the ground truth and update the counters.
`none` models the `NameError` raised when `gt_index` is read unassigned
and the `IndexError` raised when `gt_labels[gt_index]` is out of range. -/
def processDetection (iou_threshold : ℚ) (gtBoxes : List Box) (gtLabels : List ℤ)
    (d : Detection) (s : EvalState) : Option EvalState :=
  if d.score < 1/2 then some s
  else
    let pb := swapBox d.box
    let m := bestMatch gtBoxes pb s.gtIndex
    if m.1 > iou_threshold then
      match m.2 with
      | none => none
      | some j =>
        match gtLabels[j]? with
        | none => none
        | some lbl =>
          if d.label = lbl then some { s with tp := s.tp + 1, gtIndex := some j }
          else some { s with fp := s.fp + 1, gtIndex := some j }
    else some { s with fp := s.fp + 1, gtIndex := m.2 }

/-- The detection loop over one image's predicted boxes. -/
def processDetections (iou_threshold : ℚ) (gtBoxes : List Box) (gtLabels : List ℤ) :
    List Detection → EvalState → Option EvalState
  | [], s => some s
  | d :: ds, s =>
    match processDetection iou_threshold gtBoxes gtLabels d s with
    | none => none
    | some s1 => processDetections iou_threshold gtBoxes gtLabels ds s1

/-- One iteration of the image loop: process every detection, then
`false_negatives += len(gt_boxes) - true_positives`, where
`true_positives` is the running cumulative counter. -/
def processImage (iou_threshold : ℚ) (img : ImageSample) (s : EvalState) :
    Option EvalState :=
  match processDetections iou_threshold img.gtBoxes img.gtLabels img.dets s with
  | none => none
  | some s1 => some { s1 with fn := s1.fn + (img.gtBoxes.length : ℤ) - (s1.tp : ℤ) }

/-- The image loop of `evaluate_model_performance`. -/
def processImages (iou_threshold : ℚ) : List ImageSample → EvalState → Option EvalState
  | [], s => some s
  | img :: imgs, s =>
    match processImage iou_threshold img s with
    | none => none
    | some s1 => processImages iou_threshold imgs s1

/-- The values reported by `evaluate_model_performance`: the three
counters, precision and recall. -/
structure EvalResult where
  tp : ℕ
  fp : ℕ
  fn : ℤ
  precision : ℚ
  recallVal : ℚ
deriving DecidableEq, Repr

/-- `evaluate_model_performance(dataset, detector, iou_threshold,
num_samples)`: run the evaluation loop over the first `num_samples`
images (modelling `dataset.take(num_samples)` with the detector output
already attached to each image), then derive precision and recall with
the zero guards of the source. -/
def evaluate_model_performance (iou_threshold : ℚ) (num_samples : ℕ)
    (imgs : List ImageSample) : Option EvalResult :=
  match processImages iou_threshold (imgs.take num_samples) initState with
  | none => none
  | some s =>
    let precision : ℚ :=
      if (s.tp : ℚ) + (s.fp : ℚ) > 0 then (s.tp : ℚ) / ((s.tp : ℚ) + (s.fp : ℚ)) else 0
    let recallVal : ℚ :=
      if (s.tp : ℚ) + (s.fn : ℚ) > 0 then (s.tp : ℚ) / ((s.tp : ℚ) + (s.fn : ℚ)) else 0
    some ⟨s.tp, s.fp, s.fn, precision, recallVal⟩

/-- Labelling logic of `run_detector_and_visualize` for the surviving
detections (score strictly above 0.5), given `(class_id, score)` pairs.
The source guards `if class_id < len(class_names): label = class_names[class_id]`
with no else branch, so an out-of-range id leaves `label` holding its
previous value, and `plt.text(..., label, ...)` raises `NameError` when
`label` was never assigned; `none` models that failure.  The result is
the list of label strings placed next to the predicted boxes. -/
def visualizeLabelsAux (class_names : List String) :
    List (ℕ × ℚ) → Option String → Option (List String)
  | [], _ => some []
  | (cid, score) :: rest, lbl =>
    if score > 1/2 then
      match (if cid < class_names.length then class_names[cid]? else lbl) with
      | none => none
      | some l =>
        match visualizeLabelsAux class_names rest (some l) with
        | none => none
        | some ls => some (l :: ls)
    else visualizeLabelsAux class_names rest lbl

/-- The labels `run_detector_and_visualize` writes, starting with `label`
unassigned. -/
def run_detector_and_visualize_labels (class_names : List String)
    (dets : List (ℕ × ℚ)) : Option (List String) :=
  visualizeLabelsAux class_names dets none

/-- Labelling logic of `process_uploaded_image`:
`label = class_names[class_id] if class_id < len(class_names) else "UNKNOWN"`
for each detection with `score > 0.5`; returns the printed label list. -/
def process_uploaded_image_labels (class_names : List String)
    (dets : List (ℕ × ℚ)) : List String :=
  dets.filterMap (fun p =>
    if p.2 > 1/2 then
      some (if p.1 < class_names.length then class_names.getD p.1 "" else "UNKNOWN")
    else none)

/-- Number of detections surviving the `score < 0.5` filter. -/
def survivors (ds : List Detection) : ℕ :=
  (ds.filter (fun d => 1/2 ≤ d.score)).length

/-- Total surviving detections across a list of images. -/
def totalSurvivors (imgs : List ImageSample) : ℕ :=
  (imgs.map (fun img => survivors img.dets)).sum

/-- A symmetric example box, unchanged by `swapBox`. -/
def cbox : Box := ⟨1/5, 1/5, 4/5, 4/5⟩

/-- An image with one ground-truth box, perfectly matched by one
correctly labelled detection of confidence 0.9. -/
def cimg : ImageSample := ⟨[cbox], [0], [⟨cbox, 9/10, 0⟩]⟩

/-- An image with no ground-truth boxes and no detections. -/
def eimg : ImageSample := ⟨[], [], []⟩

section IoUFacts

variable (b1 b2 : Box)

theorem intersection_nonneg :
    0 ≤ max 0 (min b1.ymax b2.ymax - max b1.ymin b2.ymin) *
        max 0 (min b1.xmax b2.xmax - max b1.xmin b2.xmin) :=
  mul_nonneg (le_max_left _ _) (le_max_left _ _)

theorem intersection_le_area1 (h1 : ValidBox b1) :
    max 0 (min b1.ymax b2.ymax - max b1.ymin b2.ymin) *
      max 0 (min b1.xmax b2.xmax - max b1.xmin b2.xmin) ≤ boxArea b1 := by
  obtain ⟨hy1, hx1⟩ := h1
  have hdy : max 0 (min b1.ymax b2.ymax - max b1.ymin b2.ymin) ≤ b1.ymax - b1.ymin := by
    apply max_le (by linarith)
    have h3 := min_le_left b1.ymax b2.ymax
    have h4 := le_max_left b1.ymin b2.ymin
    linarith
  have hdx : max 0 (min b1.xmax b2.xmax - max b1.xmin b2.xmin) ≤ b1.xmax - b1.xmin := by
    apply max_le (by linarith)
    have h3 := min_le_left b1.xmax b2.xmax
    have h4 := le_max_left b1.xmin b2.xmin
    linarith
  exact mul_le_mul hdy hdx (le_max_left _ _) (by linarith)

theorem intersection_le_area2 (h2 : ValidBox b2) :
    max 0 (min b1.ymax b2.ymax - max b1.ymin b2.ymin) *
      max 0 (min b1.xmax b2.xmax - max b1.xmin b2.xmin) ≤ boxArea b2 := by
  obtain ⟨hy2, hx2⟩ := h2
  have hdy : max 0 (min b1.ymax b2.ymax - max b1.ymin b2.ymin) ≤ b2.ymax - b2.ymin := by
    apply max_le (by linarith)
    have h3 := min_le_right b1.ymax b2.ymax
    have h4 := le_max_right b1.ymin b2.ymin
    linarith
  have hdx : max 0 (min b1.xmax b2.xmax - max b1.xmin b2.xmin) ≤ b2.xmax - b2.xmin := by
    apply max_le (by linarith)
    have h3 := min_le_right b1.xmax b2.xmax
    have h4 := le_max_right b1.xmin b2.xmin
    linarith
  exact mul_le_mul hdy hdx (le_max_left _ _) (by linarith)

end IoUFacts

/-- C5: for every pair of valid boxes, `calculate_iou` lies between 0 and 1
inclusive. -/
theorem calculate_iou_bounds (b1 b2 : Box) (h1 : ValidBox b1) (h2 : ValidBox b2) :
    0 ≤ calculate_iou b1 b2 ∧ calculate_iou b1 b2 ≤ 1 := by
  have hI0 := intersection_nonneg b1 b2
  have hI1 := intersection_le_area1 b1 b2 h1
  have hI2 := intersection_le_area2 b1 b2 h2
  simp only [boxArea] at hI1 hI2
  simp only [calculate_iou]
  split
  · norm_num
  · next h =>
    have hU : 0 < (b1.ymax - b1.ymin) * (b1.xmax - b1.xmin) +
        (b2.ymax - b2.ymin) * (b2.xmax - b2.xmin) -
        max 0 (min b1.ymax b2.ymax - max b1.ymin b2.ymin) *
          max 0 (min b1.xmax b2.xmax - max b1.xmin b2.xmin) :=
      lt_of_le_of_ne (by linarith) (Ne.symm h)
    refine ⟨div_nonneg hI0 (le_of_lt hU), ?_⟩
    rw [div_le_one hU]
    linarith

/-- Witness for C5 at the example boxes of the spec. -/
theorem calculate_iou_bounds_witness :
    0 ≤ calculate_iou ⟨0, 0, 10, 10⟩ ⟨5, 5, 15, 15⟩ ∧
      calculate_iou ⟨0, 0, 10, 10⟩ ⟨5, 5, 15, 15⟩ ≤ 1 :=
  calculate_iou_bounds ⟨0, 0, 10, 10⟩ ⟨5, 5, 15, 15⟩
    (by constructor <;> norm_num) (by constructor <;> norm_num)

/-- C6: for valid boxes of which at least one has zero area, the IoU is 0;
in particular the union-zero guard prevents a division by zero. -/
theorem calculate_iou_zero_area (b1 b2 : Box) (h1 : ValidBox b1) (h2 : ValidBox b2)
    (hz : boxArea b1 = 0 ∨ boxArea b2 = 0) : calculate_iou b1 b2 = 0 := by
  have hI0 := intersection_nonneg b1 b2
  have hI1 := intersection_le_area1 b1 b2 h1
  have hI2 := intersection_le_area2 b1 b2 h2
  have hI : max 0 (min b1.ymax b2.ymax - max b1.ymin b2.ymin) *
      max 0 (min b1.xmax b2.xmax - max b1.xmin b2.xmin) = 0 := by
    rcases hz with hz | hz
    · rw [hz] at hI1; linarith
    · rw [hz] at hI2; linarith
  simp only [calculate_iou]
  split
  · rfl
  · rw [hI, zero_div]

/-- Witness for C6: a degenerate box against a unit box. -/
theorem calculate_iou_zero_area_witness :
    calculate_iou ⟨0, 0, 0, 1⟩ ⟨0, 0, 1, 1⟩ = 0 :=
  calculate_iou_zero_area ⟨0, 0, 0, 1⟩ ⟨0, 0, 1, 1⟩
    (by constructor <;> norm_num) (by constructor <;> norm_num)
    (Or.inl (by norm_num [boxArea]))

/-- C7: for every non-degenerate valid box, the IoU of the box with itself
is 1. -/
theorem calculate_iou_self (b : Box) (hy : b.ymin < b.ymax) (hx : b.xmin < b.xmax) :
    calculate_iou b b = 1 := by
  simp only [calculate_iou, min_self, max_self]
  have h1 : max 0 (b.ymax - b.ymin) = b.ymax - b.ymin := max_eq_right (by linarith)
  have h2 : max 0 (b.xmax - b.xmin) = b.xmax - b.xmin := max_eq_right (by linarith)
  rw [h1, h2]
  have hA : 0 < (b.ymax - b.ymin) * (b.xmax - b.xmin) :=
    mul_pos (by linarith) (by linarith)
  rw [if_neg (by intro h; nlinarith)]
  have hU : (b.ymax - b.ymin) * (b.xmax - b.xmin) +
      (b.ymax - b.ymin) * (b.xmax - b.xmin) -
      (b.ymax - b.ymin) * (b.xmax - b.xmin) =
      (b.ymax - b.ymin) * (b.xmax - b.xmin) := by ring
  rw [hU, div_self (ne_of_gt hA)]

/-- Witness for C7 at the example box `cbox`. -/
theorem calculate_iou_self_witness : calculate_iou cbox cbox = 1 :=
  calculate_iou_self cbox (by norm_num [cbox]) (by norm_num [cbox])

/-- C4: a detection with confidence score below the 0.5 confidence
threshold leaves the evaluation state (all three counters included)
unchanged. -/
theorem low_confidence_detection_noop (t : ℚ) (gb : List Box) (gl : List ℤ)
    (d : Detection) (s : EvalState) (h : d.score < 1/2) :
    processDetection t gb gl d s = some s := by
  simp only [processDetection]
  rw [if_pos h]

/-- Witness for C4: a detection with score 0.4 under the default
threshold changes nothing. -/
theorem low_confidence_detection_noop_witness :
    processDetection (1/2) [cbox] [0] ⟨cbox, 2/5, 0⟩ initState = some initState :=
  low_confidence_detection_noop (1/2) [cbox] [0] ⟨cbox, 2/5, 0⟩ initState (by norm_num)

theorem bestMatchAux_fst (pb : Box) : ∀ (gs : List Box) (j : ℕ) (acc : ℚ × Option ℕ),
    (bestMatchAux pb gs j acc).1 =
      gs.foldl (fun m g => max m (calculate_iou g pb)) acc.1
  | [], _, _ => rfl
  | g :: gs, j, acc => by
    simp only [bestMatchAux, List.foldl]
    rw [bestMatchAux_fst pb gs (j + 1)]
    congr 1
    by_cases h : calculate_iou g pb > acc.1
    · rw [if_pos h]
      exact (max_eq_right (le_of_lt h)).symm
    · rw [if_neg h]
      exact (max_eq_left (le_of_not_lt h)).symm

theorem bestMatchAux_attained (pb : Box) : ∀ (gs : List Box) (j : ℕ) (acc : ℚ × Option ℕ),
    bestMatchAux pb gs j acc = acc ∨
    ∃ k, ∃ hk : k < gs.length, (bestMatchAux pb gs j acc).2 = some (j + k) ∧
      calculate_iou (gs.get ⟨k, hk⟩) pb = (bestMatchAux pb gs j acc).1
  | [], _, _ => Or.inl rfl
  | g :: gs, j, acc => by
    simp only [bestMatchAux]
    by_cases h : calculate_iou g pb > acc.1
    · rw [if_pos h]
      rcases bestMatchAux_attained pb gs (j + 1) (calculate_iou g pb, some j)
        with heq | ⟨k, hk, h2, h1⟩
      · right
        refine ⟨0, by simp, ?_, ?_⟩
        · rw [heq]
          simp
        · rw [heq]
          simp [List.get]
      · right
        refine ⟨k + 1, by simpa using Nat.succ_lt_succ hk, ?_, ?_⟩
        · rw [h2]
          exact congrArg some (by omega)
        · simpa using h1
    · rw [if_neg h]
      rcases bestMatchAux_attained pb gs (j + 1) acc with heq | ⟨k, hk, h2, h1⟩
      · left
        exact heq
      · right
        refine ⟨k + 1, Nat.succ_lt_succ hk, ?_, ?_⟩
        · rw [h2]
          exact congrArg some (by omega)
        · simpa using h1

theorem bestMatch_fst (gb : List Box) (pb : Box) (idx : Option ℕ) :
    (bestMatch gb pb idx).1 = bestIoU gb pb :=
  bestMatchAux_fst pb gb 0 (0, idx)

theorem bestMatch_attained (gb : List Box) (pb : Box) (idx : Option ℕ) :
    bestMatch gb pb idx = (0, idx) ∨
    ∃ k, ∃ hk : k < gb.length, (bestMatch gb pb idx).2 = some k ∧
      calculate_iou (gb.get ⟨k, hk⟩) pb = (bestMatch gb pb idx).1 := by
  rcases bestMatchAux_attained pb gb 0 (0, idx) with h | ⟨k, hk, h2, h1⟩
  · left
    exact h
  · right
    exact ⟨k, hk, by simpa using h2, h1⟩

/-- C2: for a detection surviving the confidence filter (with a
nonnegative IoU threshold and label list matching the box list), if the
highest IoU it attains against the ground-truth boxes exceeds the
threshold then exactly one counter moves: `true_positives` when the
predicted label equals the label of a ground-truth box attaining that
best IoU, `false_positives` otherwise; and if the best IoU is at most
the threshold, `false_positives` is incremented. -/
theorem detection_branching (t : ℚ) (gb : List Box) (gl : List ℤ) (d : Detection)
    (s : EvalState) (ht : 0 ≤ t) (hlen : gl.length = gb.length)
    (hs : ¬ d.score < 1/2) :
    (bestIoU gb (swapBox d.box) > t →
      ∃ k, ∃ hk : k < gb.length,
        calculate_iou (gb.get ⟨k, hk⟩) (swapBox d.box) = bestIoU gb (swapBox d.box) ∧
        ∃ s1, processDetection t gb gl d s = some s1 ∧
          (if d.label = gl.getD k 0 then s1.tp = s.tp + 1 ∧ s1.fp = s.fp
           else s1.fp = s.fp + 1 ∧ s1.tp = s.tp)) ∧
    (bestIoU gb (swapBox d.box) ≤ t →
      ∃ s1, processDetection t gb gl d s = some s1 ∧
        s1.fp = s.fp + 1 ∧ s1.tp = s.tp) := by
  have hfst := bestMatch_fst gb (swapBox d.box) s.gtIndex
  constructor
  · intro hbi
    have hm1 : (bestMatch gb (swapBox d.box) s.gtIndex).1 > t := by
      rw [hfst]
      exact hbi
    rcases bestMatch_attained gb (swapBox d.box) s.gtIndex with heq | ⟨k, hk, hm2, hiou⟩
    · exfalso
      rw [heq] at hm1
      simp at hm1
      linarith
    · have hkl : k < gl.length := by omega
      have hgl : gl[k]? = some (gl.getD k 0) := by
        rw [List.getElem?_eq_getElem hkl, List.getD_eq_getElem?_getD,
          List.getElem?_eq_getElem hkl]
        rfl
      refine ⟨k, hk, by rw [hiou, hfst], ?_⟩
      by_cases hl : d.label = gl.getD k 0
      · have hpd : processDetection t gb gl d s =
            some { s with tp := s.tp + 1, gtIndex := some k } := by
          simp only [processDetection]
          rw [if_neg hs, if_pos hm1]
          simp only [hm2, hgl]
          rw [if_pos hl]
        refine ⟨_, hpd, ?_⟩
        rw [if_pos hl]
        exact ⟨rfl, rfl⟩
      · have hpd : processDetection t gb gl d s =
            some { s with fp := s.fp + 1, gtIndex := some k } := by
          simp only [processDetection]
          rw [if_neg hs, if_pos hm1]
          simp only [hm2, hgl]
          rw [if_neg hl]
        refine ⟨_, hpd, ?_⟩
        rw [if_neg hl]
        exact ⟨rfl, rfl⟩
  · intro hbi
    have hm1 : ¬ (bestMatch gb (swapBox d.box) s.gtIndex).1 > t := by
      rw [hfst]
      exact not_lt.mpr hbi
    have hpd : processDetection t gb gl d s =
        some { s with
               fp := s.fp + 1,
               gtIndex := (bestMatch gb (swapBox d.box) s.gtIndex).2 } := by
      simp only [processDetection]
      rw [if_neg hs, if_neg hm1]
    exact ⟨_, hpd, rfl, rfl⟩

theorem processDetection_step (t : ℚ) (gb : List Box) (gl : List ℤ) (d : Detection)
    (s s1 : EvalState) (h : processDetection t gb gl d s = some s1) :
    (d.score < 1/2 ∧ s1 = s) ∨
    (1/2 ≤ d.score ∧ s1.tp + s1.fp = s.tp + s.fp + 1 ∧ s1.fn = s.fn) := by
  by_cases hs : d.score < 1/2
  · left
    refine ⟨hs, ?_⟩
    simp only [processDetection] at h
    rw [if_pos hs] at h
    exact (Option.some.inj h).symm
  · right
    refine ⟨le_of_not_lt hs, ?_⟩
    simp only [processDetection] at h
    rw [if_neg hs] at h
    by_cases hm : (bestMatch gb (swapBox d.box) s.gtIndex).1 > t
    · rw [if_pos hm] at h
      rcases hm2 : (bestMatch gb (swapBox d.box) s.gtIndex).2 with _ | j
      · simp only [hm2] at h
        exact Option.noConfusion h
      · simp only [hm2] at h
        rcases hgl : gl[j]? with _ | lbl
        · simp only [hgl] at h
          exact Option.noConfusion h
        · simp only [hgl] at h
          by_cases hl : d.label = lbl
          · rw [if_pos hl] at h
            obtain rfl := (Option.some.inj h)
            refine ⟨?_, rfl⟩
            show s.tp + 1 + s.fp = s.tp + s.fp + 1
            omega
          · rw [if_neg hl] at h
            obtain rfl := (Option.some.inj h)
            exact ⟨rfl, rfl⟩
    · rw [if_neg hm] at h
      obtain rfl := (Option.some.inj h)
      exact ⟨rfl, rfl⟩

theorem processDetections_tally (t : ℚ) (gb : List Box) (gl : List ℤ) :
    ∀ (ds : List Detection) (s s1 : EvalState),
      processDetections t gb gl ds s = some s1 →
      s1.tp + s1.fp = s.tp + s.fp + survivors ds ∧ s1.fn = s.fn
  | [], s, s1, h => by
    obtain rfl := Option.some.inj h
    simp [survivors]
  | d :: ds, s, s1, h => by
    simp only [processDetections] at h
    rcases hd : processDetection t gb gl d s with _ | s2
    · rw [hd] at h
      exact Option.noConfusion h
    · simp only [hd] at h
      obtain ⟨ih1, ih2⟩ := processDetections_tally t gb gl ds s2 s1 h
      rcases processDetection_step t gb gl d s s2 hd with ⟨hs, rfl⟩ | ⟨hs, h1, h2⟩
      · have hcount : survivors (d :: ds) = survivors ds := by
          simp only [survivors, List.filter_cons, decide_eq_true_eq]
          rw [if_neg (not_le.mpr hs)]
        exact ⟨by omega, ih2⟩
      · have hcount : survivors (d :: ds) = survivors ds + 1 := by
          simp only [survivors, List.filter_cons, decide_eq_true_eq]
          rw [if_pos hs]
          simp
        exact ⟨by omega, ih2.trans h2⟩

theorem processImage_tally (t : ℚ) (img : ImageSample) (s s1 : EvalState)
    (h : processImage t img s = some s1) :
    s1.tp + s1.fp = s.tp + s.fp + survivors img.dets ∧
    s1.fn = s.fn + (img.gtBoxes.length : ℤ) - (s1.tp : ℤ) := by
  simp only [processImage] at h
  rcases hd : processDetections t img.gtBoxes img.gtLabels img.dets s with _ | s2
  · rw [hd] at h
    exact Option.noConfusion h
  · simp only [hd] at h
    obtain rfl := Option.some.inj h
    obtain ⟨h1, h2⟩ := processDetections_tally t img.gtBoxes img.gtLabels img.dets s s2 hd
    refine ⟨h1, ?_⟩
    show s2.fn + (img.gtBoxes.length : ℤ) - (s2.tp : ℤ) =
      s.fn + (img.gtBoxes.length : ℤ) - (s2.tp : ℤ)
    rw [h2]

theorem processImages_tally (t : ℚ) :
    ∀ (imgs : List ImageSample) (s s1 : EvalState),
      processImages t imgs s = some s1 →
      s1.tp + s1.fp = s.tp + s.fp + totalSurvivors imgs
  | [], s, s1, h => by
    obtain rfl := Option.some.inj h
    simp [totalSurvivors]
  | img :: imgs, s, s1, h => by
    simp only [processImages] at h
    rcases hd : processImage t img s with _ | s2
    · rw [hd] at h
      exact Option.noConfusion h
    · simp only [hd] at h
      have ih := processImages_tally t imgs s2 s1 h
      have h1 := (processImage_tally t img s s2 hd).1
      have hts : totalSurvivors (img :: imgs) = survivors img.dets + totalSurvivors imgs := by
        simp [totalSurvivors]
      omega

/-- C9: every detection surviving the confidence filter moves exactly one
of `true_positives` and `false_positives` by one, so after any completed
stretch of the loop `tp + fp` equals the number of surviving detections
processed so far, across all images. -/
theorem tp_fp_counts_survivors (t : ℚ) :
    (∀ (gb : List Box) (gl : List ℤ) (ds : List Detection) (s s1 : EvalState),
      processDetections t gb gl ds s = some s1 →
      s1.tp + s1.fp = s.tp + s.fp + survivors ds) ∧
    (∀ (imgs : List ImageSample) (s1 : EvalState),
      processImages t imgs initState = some s1 →
      s1.tp + s1.fp = totalSurvivors imgs) := by
  constructor
  · intro gb gl ds s s1 h
    exact (processDetections_tally t gb gl ds s s1 h).1
  · intro imgs s1 h
    have h2 := processImages_tally t imgs initState s1 h
    simpa [initState] using h2

/-- Witness for C9 on a one-image run with one surviving detection. -/
theorem tp_fp_counts_survivors_witness :
    (⟨1, 0, 0, some 0⟩ : EvalState).tp + (⟨1, 0, 0, some 0⟩ : EvalState).fp =
      totalSurvivors [cimg] :=
  (tp_fp_counts_survivors (1/2)).2 [cimg] ⟨1, 0, 0, some 0⟩ (by
    norm_num [processImages, processImage, processDetections, processDetection,
      bestMatch, bestMatchAux, calculate_iou, swapBox, cimg, cbox, initState,
      max_def, min_def])

/-- C1 (amended): each image adds `len(gt_boxes) - true_positives` to
`false_negatives`, where `true_positives` is the cumulative counter over
all images processed so far (its value after this image's detections),
not the per-image true-positive count. -/
theorem fn_update_cumulative (t : ℚ) (img : ImageSample) (s s1 : EvalState)
    (h : processImage t img s = some s1) :
    s1.fn = s.fn + (img.gtBoxes.length : ℤ) - (s1.tp : ℤ) :=
  (processImage_tally t img s s1 h).2

/-- Witness for the amended C1 on a concrete image. -/
theorem fn_update_cumulative_witness :
    (⟨1, 0, 0, some 0⟩ : EvalState).fn =
      initState.fn + (cimg.gtBoxes.length : ℤ) - ((⟨1, 0, 0, some 0⟩ : EvalState).tp : ℤ) :=
  fn_update_cumulative (1/2) cimg initState ⟨1, 0, 0, some 0⟩ (by
    norm_num [processImage, processDetections, processDetection,
      bestMatch, bestMatchAux, calculate_iou, swapBox, cimg, cbox, initState,
      max_def, min_def])

/-- Counterexample to C1 as stated: two identical images, each with one
ground-truth box matched by one correct detection.  The second image
contributes `-1` to `false_negatives`, but its ground-truth count minus
its per-image true-positive count is `1 - (2 - 1) = 0`. -/
theorem fn_per_image_cex :
    processImages (1/2) [cimg] initState = some ⟨1, 0, 0, some 0⟩ ∧
    processImages (1/2) [cimg, cimg] initState = some ⟨2, 0, -1, some 0⟩ ∧
    ((-1 : ℤ) - 0 ≠ (cimg.gtBoxes.length : ℤ) - ((2 : ℤ) - 1)) := by
  refine ⟨?_, ?_, ?_⟩
  · norm_num [processImages, processImage, processDetections, processDetection,
      bestMatch, bestMatchAux, calculate_iou, swapBox, cimg, cbox, initState,
      max_def, min_def]
  · norm_num [processImages, processImage, processDetections, processDetection,
      bestMatch, bestMatchAux, calculate_iou, swapBox, cimg, cbox, initState,
      max_def, min_def]
  · norm_num [cimg]

/-- C10: on two images each holding one ground-truth box perfectly matched
(IoU 1) by one correctly labelled detection of confidence 0.9, the final
`false_negatives` is negative and the reported recall is 2, exceeding 1. -/
theorem cumulative_fn_negative_recall :
    calculate_iou cbox (swapBox cbox) = 1 ∧
    evaluate_model_performance (1/2) 2 [cimg, cimg] = some ⟨2, 0, -1, 1, 2⟩ ∧
    ((-1 : ℤ) < 0) ∧ ((1 : ℚ) < 2) := by
  refine ⟨?_, ?_, by norm_num, by norm_num⟩
  · norm_num [calculate_iou, swapBox, cbox, max_def, min_def]
  · norm_num [evaluate_model_performance, processImages, processImage,
      processDetections, processDetection, bestMatch, bestMatchAux,
      calculate_iou, swapBox, cimg, cbox, initState, max_def, min_def]

/-- C3 (amended): precision is `TP/(TP+FP)` and `0` exactly when
`TP+FP = 0`; recall is `TP/(TP+FN)` when `TP+FN > 0` and `0` whenever
`TP+FN ≤ 0` — which includes negative denominators, reachable because
`FN` can go negative.  No exception is raised. -/
theorem precision_recall_guarded (t : ℚ) (n : ℕ) (imgs : List ImageSample)
    (r : EvalResult) (h : evaluate_model_performance t n imgs = some r) :
    (r.tp + r.fp = 0 → r.precision = 0) ∧
    (r.tp + r.fp ≠ 0 → r.precision = (r.tp : ℚ) / ((r.tp : ℚ) + (r.fp : ℚ))) ∧
    ((r.tp : ℚ) + (r.fn : ℚ) ≤ 0 → r.recallVal = 0) ∧
    (0 < (r.tp : ℚ) + (r.fn : ℚ) → r.recallVal = (r.tp : ℚ) / ((r.tp : ℚ) + (r.fn : ℚ))) := by
  simp only [evaluate_model_performance] at h
  rcases hp : processImages t (imgs.take n) initState with _ | s
  · rw [hp] at h
    exact Option.noConfusion h
  · simp only [hp] at h
    obtain rfl := Option.some.inj h
    refine ⟨?_, ?_, ?_, ?_⟩
    · intro h0
      have h1 : s.tp + s.fp = 0 := h0
      have h2 : ¬ ((s.tp : ℚ) + (s.fp : ℚ) > 0) := by
        have ht0 : s.tp = 0 := by omega
        have hf0 : s.fp = 0 := by omega
        rw [ht0, hf0]
        norm_num
      show (if (s.tp : ℚ) + (s.fp : ℚ) > 0 then (s.tp : ℚ) / ((s.tp : ℚ) + (s.fp : ℚ)) else 0) = 0
      rw [if_neg h2]
    · intro h0
      have h1 : s.tp + s.fp ≠ 0 := h0
      have h2 : (s.tp : ℚ) + (s.fp : ℚ) > 0 := by
        have : 0 < s.tp + s.fp := Nat.pos_of_ne_zero h1
        exact_mod_cast Nat.cast_pos.mpr this
      show (if (s.tp : ℚ) + (s.fp : ℚ) > 0 then (s.tp : ℚ) / ((s.tp : ℚ) + (s.fp : ℚ)) else 0) =
        (s.tp : ℚ) / ((s.tp : ℚ) + (s.fp : ℚ))
      rw [if_pos h2]
    · intro h0
      have h2 : ¬ ((s.tp : ℚ) + (s.fn : ℚ) > 0) := not_lt.mpr h0
      show (if (s.tp : ℚ) + (s.fn : ℚ) > 0 then (s.tp : ℚ) / ((s.tp : ℚ) + (s.fn : ℚ)) else 0) = 0
      rw [if_neg h2]
    · intro h0
      show (if (s.tp : ℚ) + (s.fn : ℚ) > 0 then (s.tp : ℚ) / ((s.tp : ℚ) + (s.fn : ℚ)) else 0) =
        (s.tp : ℚ) / ((s.tp : ℚ) + (s.fn : ℚ))
      rw [if_pos h0]

/-- Witness for the amended C3 on the empty run. -/
theorem precision_recall_guarded_witness :
    ((⟨0, 0, 0, 0, 0⟩ : EvalResult).tp + (⟨0, 0, 0, 0, 0⟩ : EvalResult).fp = 0 →
      (⟨0, 0, 0, 0, 0⟩ : EvalResult).precision = 0) ∧
    ((⟨0, 0, 0, 0, 0⟩ : EvalResult).tp + (⟨0, 0, 0, 0, 0⟩ : EvalResult).fp ≠ 0 →
      (⟨0, 0, 0, 0, 0⟩ : EvalResult).precision =
        ((⟨0, 0, 0, 0, 0⟩ : EvalResult).tp : ℚ) /
          (((⟨0, 0, 0, 0, 0⟩ : EvalResult).tp : ℚ) + ((⟨0, 0, 0, 0, 0⟩ : EvalResult).fp : ℚ))) ∧
    (((⟨0, 0, 0, 0, 0⟩ : EvalResult).tp : ℚ) + ((⟨0, 0, 0, 0, 0⟩ : EvalResult).fn : ℚ) ≤ 0 →
      (⟨0, 0, 0, 0, 0⟩ : EvalResult).recallVal = 0) ∧
    (0 < ((⟨0, 0, 0, 0, 0⟩ : EvalResult).tp : ℚ) + ((⟨0, 0, 0, 0, 0⟩ : EvalResult).fn : ℚ) →
      (⟨0, 0, 0, 0, 0⟩ : EvalResult).recallVal =
        ((⟨0, 0, 0, 0, 0⟩ : EvalResult).tp : ℚ) /
          (((⟨0, 0, 0, 0, 0⟩ : EvalResult).tp : ℚ) + ((⟨0, 0, 0, 0, 0⟩ : EvalResult).fn : ℚ))) :=
  precision_recall_guarded (1/2) 0 [] ⟨0, 0, 0, 0, 0⟩ (by
    norm_num [evaluate_model_performance, processImages, initState])

/-- Counterexample to C3 as stated: a run reaching `TP = 1`, `FN = -2`.
The denominator `TP + FN = -1` is not zero, yet the reported recall is 0,
not `TP/(TP+FN) = -1`. -/
theorem recall_formula_cex :
    evaluate_model_performance (1/2) 3 [cimg, eimg, eimg] = some ⟨1, 0, -2, 1, 0⟩ ∧
    ((1 : ℚ) + (-2 : ℚ) ≠ 0) ∧
    ((0 : ℚ) ≠ (1 : ℚ) / ((1 : ℚ) + (-2 : ℚ))) := by
  refine ⟨?_, by norm_num, by norm_num⟩
  norm_num [evaluate_model_performance, processImages, processImage,
    processDetections, processDetection, bestMatch, bestMatchAux,
    calculate_iou, swapBox, cimg, cbox, eimg, initState, max_def, min_def]

/-- C8 (code bug): with one known class name, a lone detection of
out-of-range class id 5 makes `run_detector_and_visualize` fail (the
`label` variable is read before assignment), and if an in-range detection
precedes it, the out-of-range one is drawn with the stale previous label
instead of being excluded; `process_uploaded_image` prints it labelled
UNKNOWN rather than excluding it. -/
theorem out_of_range_class_id_failure :
    run_detector_and_visualize_labels ["cat"] [(5, 9/10)] = none ∧
    run_detector_and_visualize_labels ["cat"] [(0, 9/10), (5, 9/10)] =
      some ["cat", "cat"] ∧
    process_uploaded_image_labels ["cat"] [(5, 9/10)] = ["UNKNOWN"] := by
  refine ⟨?_, ?_, ?_⟩
  · norm_num [run_detector_and_visualize_labels, visualizeLabelsAux]
  · norm_num [run_detector_and_visualize_labels, visualizeLabelsAux]
  · simp only [process_uploaded_image_labels, List.filterMap_cons, List.filterMap_nil]
    norm_num

/-- Witness for C2 on an image with one ground-truth box and a matching
detection. -/
theorem detection_branching_witness :
    (bestIoU [cbox] (swapBox (⟨cbox, 9/10, 0⟩ : Detection).box) > 1/2 →
      ∃ k, ∃ hk : k < [cbox].length,
        calculate_iou ([cbox].get ⟨k, hk⟩) (swapBox (⟨cbox, 9/10, 0⟩ : Detection).box) =
          bestIoU [cbox] (swapBox (⟨cbox, 9/10, 0⟩ : Detection).box) ∧
        ∃ s1, processDetection (1/2) [cbox] [0] ⟨cbox, 9/10, 0⟩ initState = some s1 ∧
          (if (⟨cbox, 9/10, 0⟩ : Detection).label = List.getD [0] k 0 then
             s1.tp = initState.tp + 1 ∧ s1.fp = initState.fp
           else s1.fp = initState.fp + 1 ∧ s1.tp = initState.tp)) ∧
    (bestIoU [cbox] (swapBox (⟨cbox, 9/10, 0⟩ : Detection).box) ≤ 1/2 →
      ∃ s1, processDetection (1/2) [cbox] [0] ⟨cbox, 9/10, 0⟩ initState = some s1 ∧
        s1.fp = initState.fp + 1 ∧ s1.tp = initState.tp) :=
  detection_branching (1/2) [cbox] [0] ⟨cbox, 9/10, 0⟩ initState (by norm_num)
    rfl (by norm_num)
